import Mathlib

/-!
Verification of the agent-eyes local telemetry relay (src/src/index.ts).

The relay keeps a bounded history of browser error reports (`errorBuffer`,
capacity `MAX_ERRORS = 20`), ingests reports over a WebSocket handler that
validates them by JavaScript truthiness, renders the history on demand
(`formatErrorsForDisplay`), and at startup tries to free its fixed port by
killing whatever processes hold it (`killProcessOnPort` /
`ensurePortAvailable`).

Each TypeScript function is embedded as a pure Lean function.  JavaScript
runtime values that the handler inspects before any typing applies are
modelled by `JsValue`; machine-level concerns (the actual socket, `exec`
shell-outs) are abstracted into an explicit environment record whose fields
are exactly the observations the code makes.
-/

/-! ## Data model (interface BrowserError, src/src/index.ts lines 16-22) -/

/-- Kind tag of a reported failure: the `type` field of `BrowserError`,
one of the string literals "error", "unhandledrejection", "crash". -/
inductive ErrKind : Type
  | error
  | unhandledrejection
  | crash
deriving DecidableEq

/-- The string value carried by each `ErrKind`, as written on the wire. -/
def kindStr : ErrKind → String
  | ErrKind.error => "error"
  | ErrKind.unhandledrejection => "unhandledrejection"
  | ErrKind.crash => "crash"

/-- One reported failure, the `BrowserError` interface: `type`, required
`message`, optional `stack`, required `timestamp` (epoch milliseconds,
modelled as `Int`), optional `url`. -/
structure BrowserError : Type where
  type : ErrKind
  message : String
  stack : Option String
  timestamp : Int
  url : Option String
deriving DecidableEq

/-! ## Error buffer (src/src/index.ts lines 28-40) -/

/-- Buffer capacity, `const MAX_ERRORS = 20`. -/
def MAX_ERRORS : Nat := 20

/-- The push-then-shift insertion of `addError`: `errorBuffer.push(error)`
followed by `errorBuffer.shift()` when the length exceeds `MAX_ERRORS`.
Polymorphic in the element type because TypeScript types are erased at
runtime: the operation only appends and drops, never inspects elements. -/
def addError {α : Type} (error : α) (errorBuffer : List α) : List α :=
  let next := errorBuffer ++ [error]
  if MAX_ERRORS < next.length then next.drop 1 else next

/-- Value-level snapshot of `getErrors`: `[...errorBuffer]` copies the
current contents.  The aliasing aspect of the copy is modelled separately
by `BufferWorld` / `getErrorsW` below. -/
def getErrors {α : Type} (errorBuffer : List α) : List α :=
  errorBuffer

/-- Inserting at exact capacity evicts exactly the head record. -/
theorem addError_at_capacity {α : Type} (e : α) (buf : List α)
    (h : buf.length = MAX_ERRORS) :
    addError e buf = buf.drop 1 ++ [e] := by
  unfold addError
  have hlt : MAX_ERRORS < (buf ++ [e]).length := by simp [h]
  rw [if_pos hlt]
  exact List.drop_append_of_le_length (by simp [h, MAX_ERRORS])

/-- The buffer never grows beyond capacity. -/
theorem addError_length_le {α : Type} (e : α) (buf : List α)
    (h : buf.length ≤ MAX_ERRORS) :
    (addError e buf).length ≤ MAX_ERRORS := by
  unfold addError
  by_cases hc : MAX_ERRORS < (buf ++ [e]).length
  · rw [if_pos hc]
    simp
    omega
  · rw [if_neg hc]
    simp at hc ⊢
    omega

/-- Folding `addError` over a list of arrivals keeps exactly the suffix of
the combined sequence that fits in the capacity. -/
theorem foldl_addError_eq_drop {α : Type} (l : List α) (buf : List α)
    (h : buf.length ≤ MAX_ERRORS) :
    l.foldl (fun b e => addError e b) buf
      = (buf ++ l).drop (buf.length + l.length - MAX_ERRORS) := by
  induction l generalizing buf with
  | nil =>
    simp [Nat.sub_eq_zero_of_le h]
  | cons e rest ih =>
    rw [List.foldl_cons]
    by_cases hc : MAX_ERRORS < (buf ++ [e]).length
    · have hlen : buf.length = MAX_ERRORS := by
        simp at hc
        omega
      have hstep : addError e buf = (buf ++ [e]).drop 1 := by
        unfold addError
        rw [if_pos hc]
      rw [hstep, ih _ (by simp; omega)]
      have hrest : ((buf ++ [e]).drop 1).length + rest.length - MAX_ERRORS
          = rest.length := by
        simp
        omega
      rw [hrest]
      have hsplit : ((buf ++ [e]).drop 1) ++ rest
          = ((buf ++ [e]) ++ rest).drop 1 :=
        (List.drop_append_of_le_length (by simp)).symm
      rw [hsplit, List.drop_drop]
      have hamt : buf.length + (e :: rest).length - MAX_ERRORS
          = rest.length + 1 := by
        simp [hlen]
      rw [hamt, List.append_assoc, Nat.add_comm 1 rest.length,
        List.singleton_append]
    · have hstep : addError e buf = buf ++ [e] := by
        unfold addError
        rw [if_neg hc]
      have hle : (buf ++ [e]).length ≤ MAX_ERRORS := by
        simp at hc ⊢
        omega
      rw [hstep, ih _ hle]
      congr 1
      · simp
        omega
      · simp

/-! ## Claim C1: bounded FIFO history -/

/-- Claim C1: for every sequence of N accepted records with N > 20
(`MAX_ERRORS`), the buffer built by repeated `addError` from empty is
exactly the last 20 records in arrival order; the N-20 earliest records
are absent (when records are pairwise distinct, so that absence of a
value is meaningful); and each accepted insertion at capacity evicts
exactly the head record. -/
theorem history_keeps_last_capacity (records : List BrowserError)
    (_hN : MAX_ERRORS < records.length) :
    records.foldl (fun b e => addError e b) []
        = records.drop (records.length - MAX_ERRORS)
    ∧ (records.Nodup → ∀ x ∈ records.take (records.length - MAX_ERRORS),
        x ∉ records.foldl (fun b e => addError e b) [])
    ∧ ∀ (buf : List BrowserError) (e : BrowserError),
        buf.length = MAX_ERRORS → addError e buf = buf.drop 1 ++ [e] := by
  have hmain : records.foldl (fun b e => addError e b) []
      = records.drop (records.length - MAX_ERRORS) := by
    have hfold := foldl_addError_eq_drop records ([] : List BrowserError)
      (by simp)
    simpa using hfold
  refine ⟨hmain, ?_, ?_⟩
  · intro hnd x hx
    rw [hmain]
    have hsplit := List.take_append_drop (records.length - MAX_ERRORS) records
    rw [← hsplit] at hnd
    have hdisj := (List.nodup_append.mp hnd).2.2
    exact fun hmem => hdisj hx hmem
  · intro buf e hcap
    exact addError_at_capacity e buf hcap

/-- A concrete run of 21 pairwise-distinct records, used to witness C1. -/
def sampleRecords : List BrowserError :=
  (List.range 21).map fun n =>
    ⟨ErrKind.error, "m", none, (n : Int), none⟩

/-- Witness for C1 at a concrete 21-record arrival sequence. -/
theorem history_keeps_last_capacity_witness :
    MAX_ERRORS < sampleRecords.length
    ∧ sampleRecords.foldl (fun b e => addError e b) []
        = sampleRecords.drop (sampleRecords.length - MAX_ERRORS) :=
  ⟨by decide, (history_keeps_last_capacity sampleRecords (by decide)).1⟩

/-! ## Claim C4: snapshots are independent copies

`getErrors` returns `[...errorBuffer]`, a freshly allocated array whose
contents equal the buffer at snapshot time.  `BufferWorld` models the
heap aspect explicitly: `snapshots` is the list of arrays handed out by
`getErrors`, addressed by allocation index, and `addErrorW` (the only
mutator) touches only `errorBuffer`. -/

/-- Heap model for the aliasing behaviour of the buffer: the live buffer
plus every array previously returned by the snapshot operation. -/
structure BufferWorld (α : Type) : Type where
  errorBuffer : List α
  snapshots : List (List α)

/-- The `addError` mutation lifted to the heap model: mutates the live
buffer in place and touches no previously returned snapshot array. -/
def addErrorW {α : Type} (e : α) (w : BufferWorld α) : BufferWorld α :=
  ⟨addError e w.errorBuffer, w.snapshots⟩

/-- The `getErrors` read lifted to the heap model: allocates a fresh
array holding a copy of the current buffer (`[...errorBuffer]`) and
returns its address. -/
def getErrorsW {α : Type} (w : BufferWorld α) : BufferWorld α × Nat :=
  (⟨w.errorBuffer, w.snapshots ++ [w.errorBuffer]⟩, w.snapshots.length)

/-- Mutations never touch the snapshot store. -/
theorem foldl_addErrorW_snapshots {α : Type} (ops : List α)
    (w : BufferWorld α) :
    (ops.foldl (fun acc e => addErrorW e acc) w).snapshots = w.snapshots := by
  induction ops generalizing w with
  | nil => rfl
  | cons e rest ih =>
    rw [List.foldl_cons]
    exact ih (addErrorW e w)

/-- Claim C4: a snapshot taken before any sequence of subsequent
insertions still holds exactly the buffer contents from snapshot time:
later `addErrorW` mutations (appends and evictions) never change the
array that `getErrorsW` handed out. -/
theorem snapshot_is_independent_copy {α : Type} (w : BufferWorld α)
    (ops : List α) :
    ((ops.foldl (fun acc e => addErrorW e acc) (getErrorsW w).1).snapshots).get?
        (getErrorsW w).2 = some w.errorBuffer := by
  rw [foldl_addErrorW_snapshots]
  simp [getErrorsW, List.getElem?_concat_length]

/-! ## Inbound message handling (src/src/index.ts lines 168-178)

The WebSocket message handler parses the frame as JSON, casts the result
to `BrowserError` without any runtime check, and appends it when
`error.message && error.timestamp` is truthy.  `JsValue` models the
JavaScript runtime values actually inspected; a missing object field
reads as `undefined`. -/

/-- A JavaScript runtime value as seen by the handler's truthiness test. -/
inductive JsValue : Type
  | undef
  | null
  | boolean (b : Bool)
  | number (n : Int)
  | string (s : String)
deriving DecidableEq

/-- JavaScript truthiness: `undefined`, `null`, `false`, `0` and the
empty string are falsy; everything else modelled here is truthy. -/
def truthy : JsValue → Bool
  | JsValue.undef => false
  | JsValue.null => false
  | JsValue.boolean b => b
  | JsValue.number n => n != 0
  | JsValue.string s => s != ""

/-- A successfully parsed JSON frame, read through the unchecked
`as BrowserError` cast: each named field is whatever runtime value the
object holds there, `undef` when the field is missing. -/
structure RawFrame : Type where
  type : JsValue
  message : JsValue
  stack : JsValue
  timestamp : JsValue
  url : JsValue
deriving DecidableEq

/-- One pass of the `ws.on("message", ...)` handler body: `none` is a
frame on which `JSON.parse` threw (caught and ignored); a parsed frame
is appended iff `error.message && error.timestamp` is truthy.  The
function is total: no input makes the handler throw. -/
def handleMessage (parsed : Option RawFrame) (buf : List RawFrame) :
    List RawFrame :=
  match parsed with
  | none => buf
  | some error =>
      if truthy error.message && truthy error.timestamp then
        addError error buf
      else
        buf

/-- Processing a whole sequence of inbound frames in arrival order. -/
def processMessages (msgs : List (Option RawFrame)) (buf : List RawFrame) :
    List RawFrame :=
  msgs.foldl (fun b m => handleMessage m b) buf

/-! ## Claim C3: empty-message / missing-timestamp frames change nothing -/

/-- Claim C3: a parsed frame whose `message` is the empty string or
missing, or whose `timestamp` is missing, is never appended: the buffer
(and hence any snapshot of it) is unchanged. -/
theorem invalid_frame_leaves_buffer_unchanged (f : RawFrame)
    (buf : List RawFrame)
    (h : f.message = JsValue.string "" ∨ f.message = JsValue.undef
        ∨ f.timestamp = JsValue.undef) :
    handleMessage (some f) buf = buf
    ∧ getErrors (handleMessage (some f) buf) = getErrors buf := by
  have hcond : (truthy f.message && truthy f.timestamp) = false := by
    rcases h with h | h | h <;> simp [h, truthy]
  have hmain : handleMessage (some f) buf = buf := by
    simp [handleMessage, hcond]
  exact ⟨hmain, by rw [hmain]⟩

/-- A concrete frame whose message is the empty string. -/
def frameEmptyMessage : RawFrame :=
  ⟨JsValue.string "error", JsValue.string "", JsValue.undef,
    JsValue.number 123, JsValue.undef⟩

/-- Witness for C3 at a concrete empty-message frame and empty buffer. -/
theorem invalid_frame_leaves_buffer_unchanged_witness :
    (frameEmptyMessage.message = JsValue.string ""
      ∨ frameEmptyMessage.message = JsValue.undef
      ∨ frameEmptyMessage.timestamp = JsValue.undef)
    ∧ handleMessage (some frameEmptyMessage) [] = []
      ∧ getErrors (handleMessage (some frameEmptyMessage) []) = getErrors [] :=
  ⟨Or.inl rfl,
    invalid_frame_leaves_buffer_unchanged frameEmptyMessage [] (Or.inl rfl)⟩

/-! ## Claim C7: undeserializable frames are silently discarded -/

/-- Claim C7: a frame on which deserialization fails is silently
dropped: the handler (a total function, so no exception escapes it)
leaves the buffer unchanged, and ingestion of all later frames proceeds
exactly as if the malformed frame had never arrived. -/
theorem malformed_frame_discarded (buf : List RawFrame)
    (rest : List (Option RawFrame)) :
    handleMessage none buf = buf
    ∧ processMessages (none :: rest) buf = processMessages rest buf := by
  exact ⟨rfl, rfl⟩

/-! ## Claim C9: a literal-zero timestamp is rejected as missing -/

/-- Claim C9: a well-formed frame whose `timestamp` is the number 0 is
rejected by the loose-truthiness check (`0` is falsy), exactly as if the
field were missing: the record is not appended and the buffer is
unchanged. -/
theorem timestamp_zero_rejected (f : RawFrame) (buf : List RawFrame)
    (h : f.timestamp = JsValue.number 0) :
    handleMessage (some f) buf = buf
    ∧ getErrors (handleMessage (some f) buf) = getErrors buf := by
  have hmain : handleMessage (some f) buf = buf := by
    simp [handleMessage, h, truthy]
  exact ⟨hmain, by rw [hmain]⟩

/-- A fully well-formed frame except that its timestamp is literally 0. -/
def frameTimestampZero : RawFrame :=
  ⟨JsValue.string "error", JsValue.string "boom", JsValue.string "at x",
    JsValue.number 0, JsValue.string "http://localhost/"⟩

/-- Witness for C9 at a concrete zero-timestamp frame. -/
theorem timestamp_zero_rejected_witness :
    frameTimestampZero.timestamp = JsValue.number 0
    ∧ handleMessage (some frameTimestampZero) [] = []
      ∧ getErrors (handleMessage (some frameTimestampZero) [])
          = getErrors [] :=
  ⟨rfl, timestamp_zero_rejected frameTimestampZero [] rfl⟩

/-! ## Claim C10: the acceptance check is truthiness-only, not typed -/

/-- Claim C10: the handler checks only truthiness of `message` and
`timestamp`, never their declared types: every parsed frame whose two
checked fields are truthy is appended via `addError`, even when the
values violate the `BrowserError` field types. -/
theorem truthy_check_ignores_declared_types (f : RawFrame)
    (buf : List RawFrame)
    (hm : truthy f.message = true) (ht : truthy f.timestamp = true) :
    handleMessage (some f) buf = addError f buf
    ∧ (buf.length < MAX_ERRORS → handleMessage (some f) buf = buf ++ [f]) := by
  have hmain : handleMessage (some f) buf = addError f buf := by
    simp [handleMessage, hm, ht]
  refine ⟨hmain, fun hlen => ?_⟩
  rw [hmain]
  unfold addError
  rw [if_neg (by simp; omega)]

/-- A type-violating but truthy frame: `message` is a number and
`timestamp` is a string, contradicting the `BrowserError` interface. -/
def frameWrongTypes : RawFrame :=
  ⟨JsValue.undef, JsValue.number 5, JsValue.undef,
    JsValue.string "later", JsValue.undef⟩

/-- Witness for C10: the type-violating frame is accepted and appended. -/
theorem truthy_check_ignores_declared_types_witness :
    truthy frameWrongTypes.message = true
    ∧ truthy frameWrongTypes.timestamp = true
    ∧ handleMessage (some frameWrongTypes) [] = [] ++ [frameWrongTypes] :=
  ⟨rfl, rfl,
    (truthy_check_ignores_declared_types frameWrongTypes [] rfl rfl).2
      (by decide)⟩

/-! ## Display formatting (src/src/index.ts lines 42-56)

`formatErrorsForDisplay` renders the snapshot.  `toLocaleTimeString` is
locale- and timezone-dependent, so it is a parameter `tl` of the
embedding; `String.prototype.split("\n")` and `toUpperCase()` are
embedded as structurally recursive functions so that they compute. -/

/-- JavaScript `s.split("\n")` at the character-list level: split on
every newline; `""` splits to `[""]`. -/
def jsSplitLinesAux (cs : List Char) : List (List Char) :=
  match cs with
  | [] => [[]]
  | c :: rest =>
    let r := jsSplitLinesAux rest
    if c = '\n' then [] :: r
    else
      match r with
      | [] => [[c]]
      | l :: ls => (c :: l) :: ls

/-- JavaScript `s.split("\n")`. -/
def jsSplitLines (s : String) : List String :=
  (jsSplitLinesAux s.data).map String.mk

/-- JavaScript `s.toUpperCase()` (ASCII, which covers the three `type`
literals actually uppercased by the code). -/
def jsToUpperCase (s : String) : String :=
  String.mk (s.data.map Char.toUpper)

/-- The fixed guidance text returned on an empty buffer. -/
def noErrorsMessage : String :=
  "No browser errors captured yet. Make sure:\n1. AgentEyesProvider is added to your app\n2. Your app is running in development mode\n3. An error has occurred in the browser"

/-- The `stack` fragment of one rendered entry: `e.stack` is tested by
truthiness (absent or empty string renders nothing), otherwise the first
three lines of the stack joined with the continuation indent. -/
def stackDisplay (e : BrowserError) : String :=
  match e.stack with
  | none => ""
  | some s =>
      if s = "" then ""
      else "\n   Stack: "
        ++ String.intercalate "\n          " ((jsSplitLines s).take 3)

/-- One rendered entry, the template
`[i+1] time | TYPE` newline three-space-indented message, then the
stack fragment. -/
def renderEntry (tl : Int → String) (i : Nat) (e : BrowserError) : String :=
  "[" ++ (toString (i + 1) ++ ("] " ++ (tl e.timestamp ++ (" | "
    ++ (jsToUpperCase (kindStr e.type) ++ ("\n   "
    ++ (e.message ++ stackDisplay e)))))))

/-- The whole `formatErrorsForDisplay`: guidance text when the snapshot
is empty, otherwise the indexed entries joined by blank lines. -/
def formatErrorsForDisplay (tl : Int → String)
    (errorBuffer : List BrowserError) : String :=
  if (getErrors errorBuffer).length = 0 then noErrorsMessage
  else
    String.intercalate "\n\n"
      ((getErrors errorBuffer).enum.map fun p => renderEntry tl p.1 p.2)

/-- Substring containment, the property the display claims are stated
with: `needle` occurs contiguously inside `hay`. -/
def strContains (hay needle : String) : Prop :=
  ∃ pre post : String, hay = pre ++ (needle ++ post)

/-- Containment is preserved by prepending text. -/
theorem strContains_appendLeft (x : String) {hay needle : String}
    (h : strContains hay needle) : strContains (x ++ hay) needle := by
  obtain ⟨a, b, rfl⟩ := h
  exact ⟨x ++ a, b, by rw [String.append_assoc]⟩

/-- A string starting with the needle contains it. -/
theorem strContains_head (needle rest : String) :
    strContains (needle ++ rest) needle :=
  ⟨"", rest, by rw [String.empty_append]⟩

/-! ## Claim C6: guidance on an empty buffer -/

set_option maxRecDepth 8192 in
/-- Claim C6: on an empty buffer the query renders the fixed guidance
message — never the empty string — and that message names the three
preconditions: instrumentation attached, development mode, and an error
having occurred. -/
theorem empty_buffer_returns_guidance (tl : Int → String) :
    formatErrorsForDisplay tl [] = noErrorsMessage
    ∧ formatErrorsForDisplay tl [] ≠ ""
    ∧ strContains (formatErrorsForDisplay tl [])
        "AgentEyesProvider is added to your app"
    ∧ strContains (formatErrorsForDisplay tl [])
        "Your app is running in development mode"
    ∧ strContains (formatErrorsForDisplay tl [])
        "An error has occurred in the browser" := by
  have heq : formatErrorsForDisplay tl [] = noErrorsMessage := rfl
  refine ⟨heq, by rw [heq]; decide, ?_, ?_, ?_⟩
  · rw [heq]
    exact ⟨"No browser errors captured yet. Make sure:\n1. ",
      "\n2. Your app is running in development mode\n3. An error has occurred in the browser",
      by decide⟩
  · rw [heq]
    exact ⟨"No browser errors captured yet. Make sure:\n1. AgentEyesProvider is added to your app\n2. ",
      "\n3. An error has occurred in the browser", by decide⟩
  · rw [heq]
    exact ⟨"No browser errors captured yet. Make sure:\n1. AgentEyesProvider is added to your app\n2. Your app is running in development mode\n3. ",
      "", by decide⟩

/-! ## Claim C5: rendering of a non-empty buffer -/

/-- Each rendered entry carries its 1-based number, the local time of
its timestamp, the uppercased kind, the message, and — when a non-empty
stack is present — the first three stack lines with the continuation
indent. -/
theorem renderEntry_parts (tl : Int → String) (i : Nat) (e : BrowserError) :
    strContains (renderEntry tl i e) ("[" ++ (toString (i + 1) ++ "] "))
    ∧ strContains (renderEntry tl i e) (tl e.timestamp)
    ∧ strContains (renderEntry tl i e) (jsToUpperCase (kindStr e.type))
    ∧ strContains (renderEntry tl i e) e.message
    ∧ ∀ s : String, e.stack = some s → s ≠ "" →
        strContains (renderEntry tl i e)
          ("Stack: " ++ String.intercalate "\n          "
            ((jsSplitLines s).take 3)) := by
  unfold renderEntry
  refine ⟨?_, ?_, ?_, ?_, ?_⟩
  · refine ⟨"", tl e.timestamp ++ (" | " ++ (jsToUpperCase (kindStr e.type)
      ++ ("\n   " ++ (e.message ++ stackDisplay e)))), ?_⟩
    rw [String.empty_append, String.append_assoc, String.append_assoc]
  · exact strContains_appendLeft _ (strContains_appendLeft _
      (strContains_appendLeft _ (strContains_head _ _)))
  · exact strContains_appendLeft _ (strContains_appendLeft _
      (strContains_appendLeft _ (strContains_appendLeft _
        (strContains_appendLeft _ (strContains_head _ _)))))
  · exact strContains_appendLeft _ (strContains_appendLeft _
      (strContains_appendLeft _ (strContains_appendLeft _
        (strContains_appendLeft _ (strContains_appendLeft _
          (strContains_appendLeft _ (strContains_head _ _)))))))
  · intro s hs hne
    have hsd : stackDisplay e = "\n   Stack: "
        ++ String.intercalate "\n          " ((jsSplitLines s).take 3) := by
      simp [stackDisplay, hs, hne]
    rw [hsd]
    refine strContains_appendLeft _ (strContains_appendLeft _
      (strContains_appendLeft _ (strContains_appendLeft _
        (strContains_appendLeft _ (strContains_appendLeft _
          (strContains_appendLeft _ (strContains_appendLeft _ ?_)))))))
    refine ⟨"\n   ", "", ?_⟩
    rw [String.append_empty,
      (by decide : ("\n   Stack: " : String) = "\n   " ++ "Stack: "),
      String.append_assoc]

/-- Claim C5: on a non-empty buffer the query renders exactly one entry
per record in arrival order, joined by blank lines; entry i is numbered
i+1 and contains the local time of record i's timestamp, its uppercased
kind, its message, and — when a non-empty stack is present — the first
three lines of the stack re-indented. -/
theorem nonempty_buffer_rendering (tl : Int → String)
    (errors : List BrowserError) (hne : errors ≠ []) :
    formatErrorsForDisplay tl errors
        = String.intercalate "\n\n"
          (errors.enum.map fun p => renderEntry tl p.1 p.2)
    ∧ (errors.enum.map fun p => renderEntry tl p.1 p.2).length
        = errors.length
    ∧ ∀ i (hi : i < errors.length),
        strContains (renderEntry tl i (errors.get ⟨i, hi⟩))
            ("[" ++ (toString (i + 1) ++ "] "))
        ∧ strContains (renderEntry tl i (errors.get ⟨i, hi⟩))
            (tl (errors.get ⟨i, hi⟩).timestamp)
        ∧ strContains (renderEntry tl i (errors.get ⟨i, hi⟩))
            (jsToUpperCase (kindStr (errors.get ⟨i, hi⟩).type))
        ∧ strContains (renderEntry tl i (errors.get ⟨i, hi⟩))
            (errors.get ⟨i, hi⟩).message
        ∧ ∀ s : String, (errors.get ⟨i, hi⟩).stack = some s → s ≠ "" →
            strContains (renderEntry tl i (errors.get ⟨i, hi⟩))
              ("Stack: " ++ String.intercalate "\n          "
                ((jsSplitLines s).take 3)) := by
  have h0 : ¬ (getErrors errors).length = 0 := by
    simp [getErrors, List.length_eq_zero, hne]
  refine ⟨?_, by simp, fun i hi => renderEntry_parts tl i _⟩
  unfold formatErrorsForDisplay
  rw [if_neg h0]
  rfl

/-- A fixed stand-in for `toLocaleTimeString`, used only in witnesses. -/
def sampleTl : Int → String := fun _ => "12:00:00 PM"

/-- A concrete non-empty buffer with a multi-line stack. -/
def sampleDisplayErrors : List BrowserError :=
  [⟨ErrKind.error, "boom", some "L1\nL2\nL3\nL4", 1000, none⟩]

/-- Witness for C5 at a concrete one-record buffer. -/
theorem nonempty_buffer_rendering_witness :
    sampleDisplayErrors ≠ []
    ∧ formatErrorsForDisplay sampleTl sampleDisplayErrors
        = String.intercalate "\n\n"
          (sampleDisplayErrors.enum.map fun p => renderEntry sampleTl p.1 p.2) :=
  ⟨by decide,
    (nonempty_buffer_rendering sampleTl sampleDisplayErrors (by decide)).1⟩

/-! ## Port takeover (src/src/index.ts lines 82-159)

`killProcessOnPort` enumerates the PIDs holding the port (lsof on Unix,
netstat on Windows) and then kills every one of them: `kill -9` on the
whole PID list on Unix, `taskkill /PID .. /F` per PID on Windows.  It
resolves a single boolean: false when the enumeration failed or found
nothing, otherwise whether a kill command succeeded.  The code performs
no inspection of what the processes are.

The environment record carries the observations the shell-outs would
return, plus a `classify` field expressing the spec's compatible/foreign
classification of each PID — present in the model precisely so that the
theorems can state whether the code consults it. -/

/-- The spec's classification of a port-holding process: a prior
compatible relay instance, or a foreign (non-relay) process. -/
inductive PClass : Type
  | compatible
  | foreign
deriving DecidableEq

/-- Abstract platform environment for one arbitration pass: the
platform flag, the candidate PIDs the enumeration reports, the spec's
classification of each PID, and the success of each kill shell-out. -/
structure PortEnv : Type where
  isWindows : Bool
  pids : List Nat
  classify : Nat → PClass
  winKillOk : Nat → Bool
  unixKillOk : Bool

/-- Outcome of `killProcessOnPort`: the boolean the promise resolves
with, plus the trace of PIDs targeted by termination calls. -/
structure KillResult : Type where
  killed : Bool
  killCalls : List Nat
deriving DecidableEq

/-- The `killProcessOnPort` arbitration: nothing enumerated resolves
false with no kill issued; otherwise every candidate PID is targeted —
one `kill -9` over the whole list on Unix (success = the command's exit
status), a `taskkill` per PID on Windows (success = any succeeded). -/
def killProcessOnPort (env : PortEnv) : KillResult :=
  if env.pids.isEmpty then ⟨false, []⟩
  else if env.isWindows then ⟨env.pids.any env.winKillOk, env.pids⟩
  else ⟨env.unixKillOk, env.pids⟩

/-- The `ensurePortAvailable` startup step: probe the port, and only
when it is occupied run `killProcessOnPort`. -/
def ensurePortAvailable (portInUse : Bool) (env : PortEnv) : KillResult :=
  if portInUse then killProcessOnPort env else ⟨false, []⟩

/-! ## Claim C2: the arbiter kills foreign processes (code bug)

The spec and the README both promise that a port held by a foreign
(non-relay) process is never touched.  The code has no classification
step at all: it kills every PID on the port. -/

/-- Failing input for C2: the port is occupied by a single process that
the spec classifies as foreign. -/
def envForeign : PortEnv :=
  ⟨false, [1234], fun _ => PClass.foreign, fun _ => false, true⟩

/-- Claim C2 evaluated at the failing input: with one foreign PID
holding the port, the arbiter still issues a termination call for it,
contradicting the claimed zero-termination-calls property. -/
theorem foreign_holder_still_killed :
    envForeign.classify 1234 = PClass.foreign
    ∧ (ensurePortAvailable true envForeign).killCalls = [1234]
    ∧ (ensurePortAvailable true envForeign).killCalls ≠ [] := by
  refine ⟨rfl, rfl, by decide⟩

/-! ## Claim C8: the arbiter's result vocabulary -/

/-- Concrete environment in which the enumeration reports no PID. -/
def envNoProcess : PortEnv :=
  ⟨false, [], fun _ => PClass.compatible, fun _ => false, true⟩

/-- Concrete environment in which the single kill command fails. -/
def envKillFailed : PortEnv :=
  ⟨false, [99], fun _ => PClass.compatible, fun _ => false, false⟩

/-- Concrete environment in which the single kill command succeeds. -/
def envKillSucceeded : PortEnv :=
  ⟨false, [42], fun _ => PClass.compatible, fun _ => false, true⟩

/-- Counterexample to C8: the resolved result in the
nothing-held-the-port situation equals the resolved result in the
tried-and-failed situation, so the operator cannot tell them apart, and
no four-way outcome exists. -/
theorem outcome_vocabulary_counterexample :
    envNoProcess.pids = [] ∧ envKillFailed.pids = [99]
    ∧ (killProcessOnPort envNoProcess).killed
        = (killProcessOnPort envKillFailed).killed := by
  refine ⟨rfl, rfl, by decide⟩

/-- Claim C8 as amended: the arbiter resolves a single boolean, not a
four-outcome code.  The result never depends on the spec's
compatible/foreign classification (no `not_node`/foreign outcome
exists); an empty enumeration and a failed kill both resolve false
(`no_process` and `kill_failed` are indistinguishable); a successful
kill resolves true. -/
theorem kill_result_is_single_boolean (env : PortEnv) (c : Nat → PClass) :
    killProcessOnPort { env with classify := c } = killProcessOnPort env
    ∧ (env.pids = [] → killProcessOnPort env = ⟨false, []⟩)
    ∧ (env.isWindows = false → env.unixKillOk = false →
        (killProcessOnPort env).killed = false)
    ∧ (env.isWindows = false → env.pids ≠ [] → env.unixKillOk = true →
        (killProcessOnPort env).killed = true) := by
  refine ⟨rfl, ?_, ?_, ?_⟩
  · intro h
    simp [killProcessOnPort, h]
  · intro hw hu
    by_cases hp : env.pids.isEmpty <;> simp [killProcessOnPort, hp, hw, hu]
  · intro hw hne hu
    have hp : env.pids.isEmpty = false := by
      simp [List.isEmpty_iff, hne]
    simp [killProcessOnPort, hp, hw, hu]

/-- Witness for C8's amended claim at the three concrete environments:
no-process and kill-failed both resolve false, success resolves true. -/
theorem kill_result_is_single_boolean_witness :
    killProcessOnPort envNoProcess = ⟨false, []⟩
    ∧ (killProcessOnPort envKillFailed).killed = false
    ∧ (killProcessOnPort envKillSucceeded).killed = true :=
  ⟨(kill_result_is_single_boolean envNoProcess (fun _ => PClass.foreign)).2.1
      rfl,
    (kill_result_is_single_boolean envKillFailed
      (fun _ => PClass.foreign)).2.2.1 rfl rfl,
    (kill_result_is_single_boolean envKillSucceeded
      (fun _ => PClass.foreign)).2.2.2 rfl (by decide) rfl⟩
